import Mathlib

/-!
Verification development for the alphalearn backend (src/app.py, src/database.py).

The Python code is shallowly embedded: external HTTP services (the dictionary
API and the Datamuse candidate API) are modelled as oracle functions passed as
parameters, JSON payloads whose expected keys may be absent are modelled with
Option fields, and exception-raising dictionary access is modelled with
Except/Option results. SQLite is modelled as an in-memory store with a pending
write list on the connection: writes become visible only at commit, and closing
a connection without commit discards pending writes (sqlite rollback-on-close).
-/

/-- A single dictionary definition object inside the dictionaryapi.dev
response.  The key `definition` may be absent (KeyError in the source), and
the key `example` may be absent (`if 'example' in definition`). -/
structure Defn where
  definition : Option String
  ex : Option String
deriving DecidableEq, Repr

/-- A meaning object: carries a list of definitions. -/
structure Meaning where
  definitions : List Defn
deriving DecidableEq, Repr

/-- One entry of the dictionary response body; the `meanings` key may be
absent (KeyError in the source). -/
structure Entry where
  meanings : Option (List Meaning)
deriving DecidableEq, Repr

/-- Outcome of `requests.get` on the dictionary API combined with
`raise_for_status`: a transport error or a non-success HTTP status both raise
`RequestException` (modelled as `failure`); otherwise the parsed JSON body is
a list of entries. -/
inductive LookupResponse where
  | failure
  | success (entries : List Entry)
deriving DecidableEq, Repr

/-- Python `str.capitalize()`: first character uppercased, the rest
lowercased. -/
def capitalize (s : String) : String :=
  match s.data with
  | [] => ""
  | c :: rest => String.mk (c.toUpper :: rest.map Char.toLower)

/-- The literal fallback string of `get_word_details`. -/
def sentinel : String := "No example sentence found."

/-- The inner loop of `get_word_details`: iterate the definitions of one
meaning and stop at the first one that has an `example` key, yielding its
value. -/
def firstExampleKey : List Defn → Option String
  | [] => none
  | d :: rest =>
    match d.ex with
    | some e => some e
    | none => firstExampleKey rest

/-- The nested example-search loop of `get_word_details` (src/app.py lines
36-43).  The mutable variable `example` starts as the sentinel; the inner
loop stores the first `example` value of the current meaning and breaks; the
outer loop stops only when the stored value differs from the sentinel. -/
def findExample : List Meaning → String
  | [] => sentinel
  | m :: rest =>
    match firstExampleKey m.definitions with
    | some e => if e = sentinel then findExample rest else e
    | none => findExample rest

/-- The normalized record returned by `get_word_details` before the caller
stamps the letter. -/
structure WordDetails where
  word : String
  meaning : String
  ex : String
deriving DecidableEq, Repr

/-- Embeds `get_word_details` (src/app.py lines 26-51): on transport failure or
non-success status returns None; otherwise takes the first entry of the body
(IndexError on empty list), the first definition of the first meaning
(KeyError / IndexError when absent or empty), and searches for an example.
All exceptions are caught and normalized to None (here `none`). -/
def get_word_details (word : String) (resp : LookupResponse) : Option WordDetails :=
  match resp with
  | .failure => none
  | .success entries =>
    match entries with
    | [] => none
    | data :: _ =>
      match data.meanings with
      | none => none
      | some meanings =>
        match meanings with
        | [] => none
        | m0 :: _ =>
          match m0.definitions with
          | [] => none
          | d0 :: _ =>
            match d0.definition with
            | none => none
            | some meaning =>
              some { word := capitalize word, meaning := meaning, ex := findExample meanings }

/-- Outcome of the Datamuse candidate query in `get_words`: a
`RequestException` (transport error or non-success status, caught at line
167) or the parsed ranked list of candidate words. -/
inductive DatamuseResponse where
  | failure
  | success (words : List String)
deriving DecidableEq, Repr

/-- The hard-coded `fallback_words` dictionary of `get_words` (src/app.py
lines 141-147). -/
def fallback_words : Char → String
  | 'A' => "Apple" | 'B' => "Brave" | 'C' => "Clever" | 'D' => "Dream"
  | 'E' => "Energy" | 'F' => "Future" | 'G' => "Grace" | 'H' => "Happy"
  | 'I' => "Imagine" | 'J' => "Journey" | 'K' => "Kind" | 'L' => "Laugh"
  | 'M' => "Magic" | 'N' => "Noble" | 'O' => "Open" | 'P' => "Peace"
  | 'Q' => "Quest" | 'R' => "Rise" | 'S' => "Smile" | 'T' => "Trust"
  | 'U' => "Unity" | 'V' => "Value" | 'W' => "Wish" | 'X' => "Xenial"
  | 'Y' => "Youth" | 'Z' => "Zeal"
  | _ => ""

/-- A finalized word record: `WordDetails` with the letter stamped by the
caller (`details['letter'] = letter`). -/
structure WordRecord where
  word : String
  meaning : String
  ex : String
  letter : Char
deriving DecidableEq, Repr

/-- The candidate-probing loop of `get_words` (lines 160-166): try each
candidate in order against the dictionary client, stop at the first success.
The `lookup` oracle gives the dictionary response for each word. -/
def tryCandidates (lookup : String → LookupResponse) : List String → Option WordDetails
  | [] => none
  | w :: rest =>
    match get_word_details w (lookup w) with
    | some d => some d
    | none => tryCandidates lookup rest

/-- Stamp the letter onto resolved details. -/
def stamp (letter : Char) (d : WordDetails) : WordRecord :=
  { word := d.word, meaning := d.meaning, ex := d.ex, letter := letter }

/-- The candidate phase of one letter iteration: nothing resolves when the
Datamuse call failed (RequestException caught at line 167, `word_found`
stays False); otherwise the first 5 candidates are probed in order
(`potential_words[:5]`, with `if potential_words` making the empty list
probe nothing). -/
def probeCandidates (lookup : String → LookupResponse) : DatamuseResponse → Option WordDetails
  | .failure => none
  | .success ws => tryCandidates lookup (ws.take 5)

/-- One iteration of the per-letter loop of `get_words` (lines 149-175):
probe the candidates, and if no candidate resolved, try the static fallback
word.  Returns the stamped record, or `none` when even the fallback lookup
fails (the letter is then omitted). -/
def buildLetter (lookup : String → LookupResponse) (cand : DatamuseResponse)
    (letter : Char) : Option WordRecord :=
  match probeCandidates lookup cand with
  | some d => some (stamp letter d)
  | none =>
    match get_word_details (fallback_words letter) (lookup (fallback_words letter)) with
    | some d => some (stamp letter d)
    | none => none

/-- Embeds `string.ascii_uppercase`, the letters the loop iterates over. -/
def uppercaseLetters : List Char :=
  ['A', 'B', 'C', 'D', 'E', 'F', 'G', 'H', 'I', 'J', 'K', 'L', 'M',
   'N', 'O', 'P', 'Q', 'R', 'S', 'T', 'U', 'V', 'W', 'X', 'Y', 'Z']

/-- The body of `get_words` (src/app.py lines 122-177) after the auth gate:
iterate letters A-Z in order, appending at most one resolved record per
letter.  `datamuse` is the Candidate Word Source oracle for this request's
difficulty tier; `lookup` is the dictionary oracle. -/
def get_words (datamuse : Char → DatamuseResponse)
    (lookup : String → LookupResponse) : List WordRecord :=
  uppercaseLetters.filterMap (fun letter => buildLetter lookup (datamuse letter) letter)

/-!  Database layer (src/database.py).  -/

/-- JSON values, the data model of the opaque quiz payload.  The source
serializes the quiz with `json.dumps` on write and `json.loads` on read; on
this data model that pair is the identity, so the embedding stores the
parsed value in the `quiz_data` column directly. -/
inductive Json where
  | null
  | bool (b : Bool)
  | num (n : Int)
  | str (s : String)
  | arr (elems : List Json)
  | obj (fields : List (String × Json))

/-- A row of the `user` table: id, unique username, stored password hash. -/
structure UserRow where
  id : Nat
  username : String
  password : String
deriving DecidableEq, Repr

/-- A row of the `session` table.  `date` holds the CURRENT_TIMESTAMP string
supplied by the storage engine at insert time. -/
structure SessionRow where
  id : Nat
  user_id : Nat
  mode : String
  score_percent : Int
  date : String
deriving DecidableEq, Repr

/-- A row of the `word` table. -/
structure WordRow where
  session_id : Nat
  letter : String
  word_text : String
  meaning : String
  ex : String
deriving DecidableEq, Repr

/-- A row of the `quiz` table.  `quiz_data` holds the quiz payload (stored
serialized in the source; see `Json`). -/
structure QuizRow where
  session_id : Nat
  quiz_data : Json

/-- The committed database state.  `next_session_id` and `next_user_id`
model sqlite rowid assignment (`cursor.lastrowid`). -/
structure DB where
  users : List UserRow
  sessions : List SessionRow
  words : List WordRow
  quizzes : List QuizRow
  next_session_id : Nat
  next_user_id : Nat

/-- A pending (uncommitted) row insert on a connection. -/
inductive PRow where
  | s (r : SessionRow)
  | w (r : WordRow)
  | q (r : QuizRow)

/-- A sqlite connection: the committed store plus the pending writes of the
open transaction.  `cursor.execute(INSERT ...)` appends to `pending`;
`db.commit()` applies them; closing without commit discards them. -/
structure Conn where
  committed : DB
  pending : List PRow

/-- Apply one pending insert to the committed store. -/
def applyRow (db : DB) : PRow → DB
  | .s r =>
    { db with
      sessions := db.sessions ++ [r]
      next_session_id := db.next_session_id + 1 }
  | .w r => { db with words := db.words ++ [r] }
  | .q r => { db with quizzes := db.quizzes ++ [r] }

/-- Embeds `db.commit()`: apply all pending writes, leaving none pending. -/
def commitConn (c : Conn) : Conn :=
  { committed := c.pending.foldl applyRow c.committed, pending := [] }

/-- Closing the connection (Flask teardown `close_db`): an open uncommitted
transaction is rolled back, so only the committed store survives. -/
def closeConn (c : Conn) : DB :=
  c.committed

/-- A JSON dict of strings, as sent by the client for each word record;
`d[k]` raises KeyError when the key is absent, modelled by `dget` returning
`none`. -/
def dget (d : List (String × String)) (k : String) : Option String :=
  (d.find? (fun p => p.1 = k)).map (fun p => p.2)

/-- The request body of POST /api/sessions: each expected key may be absent
(Python `session_data['mode']` etc. raise KeyError then). -/
structure SessionData where
  mode : Option String
  scorePercent : Option Int
  words : Option (List (List (String × String)))
  quiz : Option Json

/-- Build one `word` row from a submitted word dict (the tuple
`(session_id, w['letter'], w['word'], w['meaning'], w['example'])` of
src/database.py line 54); any missing key raises. -/
def rowOfDict (sid : Nat) (w : List (String × String)) : Except String WordRow :=
  match dget w "letter", dget w "word", dget w "meaning", dget w "example" with
  | some l, some wd, some m, some e => .ok ⟨sid, l, wd, m, e⟩
  | _, _, _, _ => .error "KeyError"

/-- The list comprehension `words_to_insert` (lines 53-56): fully evaluated
before `executemany`, so a missing key in any dict raises before any word
row is inserted. -/
def buildWordRows (sid : Nat) : List (List (String × String)) → Except String (List WordRow)
  | [] => .ok []
  | w :: rest =>
    match rowOfDict sid w with
    | .error e => .error e
    | .ok r =>
      match buildWordRows sid rest with
      | .error e => .error e
      | .ok rs => .ok (r :: rs)

/-- Result of `save_session_data`: success with the connection after commit,
or a raised exception together with the connection as the exception left it
(its pending writes are discarded when the request teardown closes it). -/
inductive SaveResult where
  | ok (c : Conn)
  | err (msg : String) (c : Conn)

/-- Embeds `save_session_data` (src/database.py lines 42-70): insert the session
header, then all word rows, then the quiz row, and only then commit.  Each
`session_data[...]` access may raise KeyError; nothing reaches the
committed store unless every step succeeded. -/
def save_session_data (user_id : Nat) (session_data : SessionData) (now : String)
    (c : Conn) : SaveResult :=
  match session_data.mode, session_data.scorePercent with
  | some mode, some score =>
    let sid := c.committed.next_session_id
    let c1 : Conn := { c with pending := c.pending ++ [.s ⟨sid, user_id, mode, score, now⟩] }
    match session_data.words with
    | none => .err "KeyError: words" c1
    | some ws =>
      match buildWordRows sid ws with
      | .error e => .err e c1
      | .ok rows =>
        let c2 : Conn := { c1 with pending := c1.pending ++ rows.map PRow.w }
        match session_data.quiz with
        | none => .err "KeyError: quiz" c2
        | some qz =>
          let c3 : Conn := { c2 with pending := c2.pending ++ [.q ⟨sid, qz⟩] }
          .ok (commitConn c3)
  | _, _ => .err "KeyError: mode or scorePercent" c

/-- The session summary rows of `get_user_sessions`. -/
structure SessionSummary where
  id : Nat
  mode : String
  score_percent : Int
  date_formatted : String
deriving DecidableEq, Repr

/-- Embeds `strftime("%Y-%m-%d %H:%M", date)` on a CURRENT_TIMESTAMP string
`YYYY-MM-DD HH:MM:SS`: the first 16 characters. -/
def date_formatted (d : String) : String :=
  d.take 16

/-- Embeds `get_user_sessions` (src/database.py lines 72-79): all sessions of the
user, ordered by date descending (modelled with a mergeSort on the
timestamp strings, whose lexicographic order is chronological for the
CURRENT_TIMESTAMP format). -/
def get_user_sessions (user_id : Nat) (db : DB) : List SessionSummary :=
  let rows := (db.sessions.filter (fun s => s.user_id == user_id)).mergeSort
    (fun a b => decide (b.date ≤ a.date))
  rows.map (fun s => ⟨s.id, s.mode, s.score_percent, date_formatted s.date⟩)

/-- The session detail object of `get_session_details` (lines 100-107).
Each word row is rendered as the dict of the selected columns, in column
order: letter, word_text, meaning, example. -/
structure SessionDetail where
  id : Nat
  mode : String
  scorePercent : Int
  dateISO : String
  words : List (List (String × String))
  quiz : Json

/-- Render one word row exactly as `dict(row)` over the selected columns. -/
def renderWordRow (w : WordRow) : List (String × String) :=
  [("letter", w.letter), ("word_text", w.word_text), ("meaning", w.meaning),
   ("example", w.ex)]

/-- Embeds `get_session_details` (src/database.py lines 81-107): ownership-checked
fetch.  The first query selects the session with the given id AND user id;
when it finds nothing (wrong owner or nonexistent id alike) the function
returns None.  The word query has no ORDER BY; sqlite returns rows in rowid
(insertion) order, which the list filter preserves. -/
def get_session_details (user_id : Nat) (session_id : Nat) (db : DB) : Option SessionDetail :=
  match db.sessions.find? (fun s => s.id == session_id && s.user_id == user_id) with
  | none => none
  | some s =>
    let words := db.words.filter (fun w => w.session_id == session_id)
    let quiz_data := db.quizzes.find? (fun q => q.session_id == session_id)
    some { id := s.id, mode := s.mode, scorePercent := s.score_percent,
           dateISO := s.date,
           words := words.map renderWordRow,
           quiz := match quiz_data with
                   | some q => q.quiz_data
                   | none => Json.arr [] }

/-- Python `round` (banker's rounding, round-half-to-even) applied to the
exact rational s / n (the embedding computes the sqlite AVG exactly).
`n` is the positive row count. -/
def pyRound (s : Int) (n : Nat) : Int :=
  let f := Int.fdiv s n
  let r := s - f * n
  if 2 * r < n then f
  else if n < 2 * r then f + 1
  else if f % 2 = 0 then f else f + 1

/-- One tier's entry in the tracking statistics. -/
structure TierStats where
  average : Int
  count : Nat
deriving DecidableEq, Repr

/-- The three difficulty levels aggregated by `get_tracking_stats`. -/
def levels : List String :=
  ["beginner", "intermediate", "proficient"]

/-- The loop body of `get_tracking_stats` for one level: the single
AVG(score_percent), COUNT(id) query over the user's sessions in that mode.
AVG is NULL exactly when there are no rows (score_percent is never null),
in which case the source substitutes 0; COUNT is never null. -/
def tierQuery (user_id : Nat) (db : DB) (level : String) : TierStats :=
  let rows := db.sessions.filter (fun s => s.user_id == user_id && s.mode == level)
  { average :=
      match rows with
      | [] => 0
      | _ => pyRound (rows.map (fun s => s.score_percent)).sum rows.length,
    count := rows.length }

/-- Embeds `get_tracking_stats` (src/database.py lines 109-124): one aggregate
query per difficulty level, collected into the stats mapping. -/
def get_tracking_stats (user_id : Nat) (db : DB) : List (String × TierStats) :=
  levels.map (fun level => (level, tierQuery user_id db level))

/-!  HTTP routes (src/app.py).  -/

/-- The body of POST /api/register; `data.get` yields None for a missing
key, modelled by `none`. -/
structure RegisterRequest where
  username : Option String
  password : Option String
deriving DecidableEq, Repr

/-- Python truthiness of a `data.get(...)` result: `not x` holds for a
missing key (None) and for the empty string alike. -/
def truthy : Option String → Bool
  | none => false
  | some s => !(s == "")

/-- Embeds `register` (src/app.py lines 62-81), returning the HTTP status and the
resulting store.  `hash` is the `generate_password_hash` capability. -/
def register (hash : String → String) (req : RegisterRequest) (db : DB) : Nat × DB :=
  if !(truthy req.username) || !(truthy req.password) then (400, db)
  else if db.users.any (fun r => r.username == req.username.getD "") then (409, db)
  else
    (201,
     { db with
       users := db.users ++ [⟨db.next_user_id, req.username.getD "",
                              hash (req.password.getD "")⟩]
       next_user_id := db.next_user_id + 1 })

/-- A JSON API response: a 200 body or an error status with its message. -/
inductive ApiResult (α : Type) where
  | ok (body : α)
  | err (status : Nat) (msg : String)

/-- GET /api/sessions/<id> (src/app.py lines 202-212): auth gate, then the
ownership-checked fetch; a None result becomes a 404 with a single message
covering both nonexistence and foreign ownership. -/
def get_session_detail_route (auth : Option Nat) (session_id : Nat) (db : DB) :
    ApiResult SessionDetail :=
  match auth with
  | none => .err 401 "Authentication required."
  | some uid =>
    match get_session_details uid session_id db with
    | some d => .ok d
    | none => .err 404 "Session not found or access denied."

/-- POST /api/sessions (src/app.py lines 179-190): auth gate, then
`save_session_data` on a fresh-transaction connection.  An exception
propagates to Flask (a 500 response) and the request teardown closes the
connection, discarding the uncommitted writes. -/
def save_session_route (auth : Option Nat) (sd : SessionData) (now : String) (db : DB) :
    Nat × DB :=
  match auth with
  | none => (401, db)
  | some uid =>
    match save_session_data uid sd now ⟨db, []⟩ with
    | .ok c => (201, closeConn c)
    | .err _ c => (500, closeConn c)

/-!  Spec-side definitions, written from the claims' words, for comparison
against the code-side definitions above.  -/

/-- Python dict equality (order-insensitive: same keys, same values) — the
deep-equality notion of claim C4. -/
def dictEq (d1 d2 : List (String × String)) : Bool :=
  d1.all (fun p => dget d2 p.1 == some p.2) && d2.all (fun p => dget d1 p.1 == some p.2)

/-- Pointwise deep equality of two lists of dicts (Python `==` on lists). -/
def dictsEq (l1 l2 : List (List (String × String))) : Bool :=
  l1.length == l2.length && (List.zip l1 l2).all (fun p => dictEq p.1 p.2)

/-- Claim C3 as stated: the example of the first definition carrying one,
scanning meanings in order and definitions within each meaning in order. -/
def firstCarryingExample (ms : List Meaning) : Option String :=
  ((ms.map (fun m => m.definitions)).flatten.filterMap (fun d => d.ex)).head?

/-- Claim C3 amended: scanning meanings in order and considering only the
first example-carrying definition within each meaning, take the first such
example whose text differs from the literal sentinel; if there is none, the
sentinel itself. -/
def amendedExample (ms : List Meaning) : String :=
  (((ms.filterMap (fun m => m.definitions.find? (fun d => d.ex.isSome))).filterMap
      (fun d => d.ex)).find? (fun e => !(e == sentinel))).getD sentinel

/-- Claim C9 as stated: 400 when a field is missing from the request,
else 409 when the submitted username is already registered, else 201. -/
def claimC9Status (req : RegisterRequest) (db : DB) : Nat :=
  if req.username.isNone || req.password.isNone then 400
  else if db.users.any (fun r => some r.username == req.username) then 409
  else 201

/-- Claim C9 amended: 400 when either field is missing or empty; otherwise
409 when the username is already registered; otherwise the user is created
(next user id, hashed password) with status 201. -/
def registerSpec (hash : String → String) (req : RegisterRequest) (db : DB) : Nat × DB :=
  match req.username, req.password with
  | some u, some p =>
    if u = "" ∨ p = "" then (400, db)
    else if (db.users.map (fun r => r.username)).contains u then (409, db)
    else
      (201,
       { db with
         users := db.users ++ [⟨db.next_user_id, u, hash p⟩]
         next_user_id := db.next_user_id + 1 })
  | _, _ => (400, db)

/-- Claim C4 amended: the shape a submitted word dict takes after the
store's round trip — the same four values, the word's text now under the
column name word_text. -/
def renameWord (w : List (String × String)) : List (String × String) :=
  [("letter", (dget w "letter").getD ""), ("word_text", (dget w "word").getD ""),
   ("meaning", (dget w "meaning").getD ""), ("example", (dget w "example").getD "")]

/-- A dictionary oracle on which every lookup succeeds with a fixed
meaning and no example; used to instantiate universally quantified
statements at a concrete world. -/
def lkAll : String → LookupResponse := fun _ =>
  .success [⟨some [⟨[⟨some "meaning text", none⟩]⟩]⟩]

/-!  Helper lemmas.  -/

theorem buildLetter_letter (lk : String → LookupResponse) (cand : DatamuseResponse)
    (c : Char) (r : WordRecord) (h : buildLetter lk cand c = some r) : r.letter = c := by
  unfold buildLetter at h
  cases hp : probeCandidates lk cand with
  | some d =>
    rw [hp] at h
    cases h
    rfl
  | none =>
    rw [hp] at h
    cases hf : get_word_details (fallback_words c) (lk (fallback_words c)) with
    | some d =>
      rw [hf] at h
      cases h
      rfl
    | none =>
      rw [hf] at h
      cases h

theorem map_letter_filterMap_sublist (g : Char → Option WordRecord)
    (hg : ∀ c r, g c = some r → r.letter = c) (l : List Char) :
    ((l.filterMap g).map (fun r => r.letter)).Sublist l := by
  induction l with
  | nil => simp
  | cons c cs ih =>
    cases hc : g c with
    | none =>
      rw [List.filterMap_cons_none hc]
      exact ih.cons c
    | some r =>
      rw [List.filterMap_cons_some hc, List.map_cons, hg c r hc]
      exact ih.cons₂ c

theorem filterMap_length_all_some (g : Char → Option WordRecord) (l : List Char)
    (h : ∀ c ∈ l, (g c).isSome) : (l.filterMap g).length = l.length := by
  induction l with
  | nil => rfl
  | cons c cs ih =>
    have hc := h c (List.mem_cons_self c cs)
    cases hg : g c with
    | none => rw [hg] at hc; cases hc
    | some r =>
      rw [List.filterMap_cons_some hg, List.length_cons, List.length_cons]
      exact congrArg Nat.succ (ih (fun x hx => h x (List.mem_cons_of_mem c hx)))

theorem mem_map_letter_filterMap (g : Char → Option WordRecord)
    (hg : ∀ c r, g c = some r → r.letter = c)
    (l : List Char) (L : Char) (hL : L ∈ l) :
    (L ∈ (l.filterMap g).map (fun r => r.letter)) ↔ (g L).isSome := by
  constructor
  · intro hmem
    obtain ⟨r, hr, hrl⟩ := List.mem_map.mp hmem
    obtain ⟨c, _, hgc⟩ := List.mem_filterMap.mp hr
    have : r.letter = c := hg c r hgc
    rw [← hrl, this]
    rw [hgc]
    rfl
  · intro hsome
    obtain ⟨r, hr⟩ := Option.isSome_iff_exists.mp hsome
    exact List.mem_map.mpr ⟨r, List.mem_filterMap.mpr ⟨L, hL, hr⟩, hg L r hr⟩

/-!  Claim theorems.  -/

/-- C1: for every difficulty tier (every candidate-source oracle) and every
dictionary oracle, the word-set build returns at most one record per letter,
each record's `letter` field an uppercase letter of the A-Z slots, the
records in alphabetical order; and whenever every letter resolves (the §4.3
contract's situation), the sequence has exactly 26 entries. -/
theorem wordset_ordered_unique (dm : Char → DatamuseResponse)
    (lk : String → LookupResponse) :
    (((get_words dm lk).map (fun r => r.letter)).Sublist uppercaseLetters)
    ∧ (((get_words dm lk).map (fun r => r.letter)).Pairwise (· < ·))
    ∧ (∀ r ∈ get_words dm lk, r.letter.isUpper)
    ∧ ((∀ c ∈ uppercaseLetters, (buildLetter lk (dm c) c).isSome) →
        (get_words dm lk).length = 26) := by
  have hg : ∀ c r, (fun letter => buildLetter lk (dm letter) letter) c = some r →
      r.letter = c := fun c r h => buildLetter_letter lk (dm c) c r h
  have hsub := map_letter_filterMap_sublist _ hg uppercaseLetters
  refine ⟨hsub, ?_, ?_, ?_⟩
  · exact List.Pairwise.sublist hsub (by decide)
  · intro r hr
    have hmem : r.letter ∈ uppercaseLetters :=
      hsub.subset (List.mem_map.mpr ⟨r, hr, rfl⟩)
    have hup : ∀ c ∈ uppercaseLetters, c.isUpper := by decide
    exact hup r.letter hmem
  · intro hall
    have hlen := filterMap_length_all_some (fun c => buildLetter lk (dm c) c)
      uppercaseLetters hall
    unfold get_words
    rw [hlen]
    rfl

/-- C1 witness: a concrete world where every letter resolves (the
candidate source fails everywhere, the fallback lookup always succeeds)
yields exactly 26 records. -/
theorem wordset_ordered_unique_witness :
    (get_words (fun _ => DatamuseResponse.failure) lkAll).length = 26 :=
  (wordset_ordered_unique (fun _ => DatamuseResponse.failure) lkAll).2.2.2 (by decide)

theorem buildLetter_none_iff (lk : String → LookupResponse) (cand : DatamuseResponse)
    (L : Char) :
    buildLetter lk cand L = none ↔
      (probeCandidates lk cand = none ∧
       get_word_details (fallback_words L) (lk (fallback_words L)) = none) := by
  unfold buildLetter
  cases hp : probeCandidates lk cand with
  | some d => simp [hp]
  | none =>
    cases hf : get_word_details (fallback_words L) (lk (fallback_words L)) with
    | some d => simp [hf]
    | none => simp [hf]

/-- C2: for every letter L, an empty candidate list and a transport failure
of the candidate source alike send the builder to the static fallback word's
lookup; the probing tries at most the first 5 candidates in order and stops
at the first success; and L is absent from the built word set exactly when
both the probed candidates and the fallback lookup all failed. -/
theorem fallback_before_omission (dm : Char → DatamuseResponse)
    (lk : String → LookupResponse) (L : Char) (ws : List String)
    (w : String) (rest : List String) (d : WordDetails)
    (hL : L ∈ uppercaseLetters)
    (hw : get_word_details w (lk w) = some d) :
    (buildLetter lk .failure L =
      (get_word_details (fallback_words L) (lk (fallback_words L))).map (stamp L))
    ∧ (buildLetter lk (.success []) L =
      (get_word_details (fallback_words L) (lk (fallback_words L))).map (stamp L))
    ∧ (buildLetter lk (.success ws) L = none ↔
        (tryCandidates lk (ws.take 5) = none ∧
         get_word_details (fallback_words L) (lk (fallback_words L)) = none))
    ∧ (tryCandidates lk (w :: rest) = some d)
    ∧ (L ∉ (get_words dm lk).map (fun r => r.letter) ↔ buildLetter lk (dm L) L = none) := by
  refine ⟨?_, ?_, ?_, ?_, ?_⟩
  · unfold buildLetter probeCandidates
    cases hf : get_word_details (fallback_words L) (lk (fallback_words L)) with
    | some d2 => simp [hf]
    | none => simp [hf]
  · unfold buildLetter probeCandidates tryCandidates
    cases hf : get_word_details (fallback_words L) (lk (fallback_words L)) with
    | some d2 => simp [hf]
    | none => simp [hf]
  · exact buildLetter_none_iff lk (.success ws) L
  · simp [tryCandidates, hw]
  · have hmem := mem_map_letter_filterMap (fun c => buildLetter lk (dm c) c)
      (fun c r h => buildLetter_letter lk (dm c) c r h) uppercaseLetters L hL
    unfold get_words
    rw [← Option.not_isSome_iff_eq_none]
    exact not_congr hmem

/-- C2 witness: at the all-successful dictionary oracle, the empty candidate
list for letter A resolves through the fallback word's lookup. -/
theorem fallback_before_omission_witness :
    buildLetter lkAll (DatamuseResponse.success []) 'A' =
      (get_word_details (fallback_words 'A') (lkAll (fallback_words 'A'))).map (stamp 'A') :=
  (fallback_before_omission (fun _ => DatamuseResponse.failure) lkAll 'A' []
    "Apple" [] ⟨"Apple", "meaning text", sentinel⟩ (by decide) (by rfl)).2.1

theorem firstExampleKey_eq_find (defs : List Defn) :
    firstExampleKey defs =
      (defs.find? (fun d => d.ex.isSome)).bind (fun d => d.ex) := by
  induction defs with
  | nil => rfl
  | cons d rest ih =>
    cases hd : d.ex with
    | some e =>
      rw [List.find?_cons_of_pos]
      · simp only [Option.some_bind, firstExampleKey, hd]
      · simp [hd]
    | none =>
      rw [List.find?_cons_of_neg]
      · simp only [firstExampleKey, hd, ih]
      · simp [hd]

theorem amendedExample_cons_none (m : Meaning) (rest : List Meaning)
    (hf : m.definitions.find? (fun d => d.ex.isSome) = none) :
    amendedExample (m :: rest) = amendedExample rest := by
  unfold amendedExample
  simp only [List.filterMap_cons, hf]

theorem amendedExample_cons_some (m : Meaning) (rest : List Meaning) (d : Defn) (e : String)
    (hf : m.definitions.find? (fun d => d.ex.isSome) = some d) (he : d.ex = some e) :
    amendedExample (m :: rest) = if e = sentinel then amendedExample rest else e := by
  unfold amendedExample
  simp only [List.filterMap_cons, hf, he]
  by_cases hs : e = sentinel
  · rw [List.find?_cons_of_neg]
    · simp [hs]
    · simp [hs]
  · rw [List.find?_cons_of_pos]
    · simp [hs]
    · simp [hs]

theorem findExample_eq_amended (ms : List Meaning) :
    findExample ms = amendedExample ms := by
  induction ms with
  | nil => rfl
  | cons m rest ih =>
    have hkey := firstExampleKey_eq_find m.definitions
    cases hf : m.definitions.find? (fun d => d.ex.isSome) with
    | none =>
      rw [hf] at hkey
      simp only [Option.none_bind] at hkey
      rw [amendedExample_cons_none m rest hf]
      simp only [findExample, hkey]
      exact ih
    | some d =>
      rw [hf] at hkey
      simp only [Option.some_bind] at hkey
      have hds : d.ex.isSome := by
        have := List.find?_some hf
        simpa using this
      obtain ⟨e, he⟩ := Option.isSome_iff_exists.mp hds
      rw [he] at hkey
      rw [amendedExample_cons_some m rest d e hf he]
      simp only [findExample, hkey]
      by_cases hs : e = sentinel
      · simp [hs, ih]
      · simp [hs]

/-- The dictionary response refuting C3's example-selection sentence: the
first example-carrying definition's example text is literally the sentinel
string, and a later meaning carries a different example. -/
def cexMeanings : List Meaning :=
  [⟨[⟨some "first meaning", some "No example sentence found."⟩]⟩,
   ⟨[⟨none, some "An example."⟩]⟩]

/-- C3 counterexample: the first definition carrying an example (scanning
meanings then definitions in order) has example text equal to the sentinel,
but the code returns a later meaning's example instead. -/
theorem example_selection_counterexample :
    ((get_word_details "cat" (.success [⟨some cexMeanings⟩])).map (fun r => r.ex) =
      some "An example.")
    ∧ firstCarryingExample cexMeanings = some "No example sentence found."
    ∧ ("An example." ≠ "No example sentence found.") :=
  ⟨rfl, rfl, by decide⟩

/-- C3 (amended): on a successful lookup the meaning is the first definition
of the first meaning; the example is chosen by scanning meanings in order,
considering within each meaning only the first definition that carries an
example, and taking the first such example text that differs from the
literal sentinel; when none differs, or none exists, the field is exactly
"No example sentence found.". -/
theorem lookup_meaning_example_selection (w : String) (rest : List Entry)
    (others : List Meaning) (de : Option String) (defs : List Defn) (df : String) :
    get_word_details w (.success (⟨some (⟨⟨some df, de⟩ :: defs⟩ :: others)⟩ :: rest)) =
      some ⟨capitalize w, df, amendedExample (⟨⟨some df, de⟩ :: defs⟩ :: others)⟩ := by
  rw [← findExample_eq_amended]
  rfl

/-- Claim C8's enumerated failure conditions on a dictionary lookup
response: transport error or non-success status (both `.failure`), an empty
body, a missing meanings array, an empty meanings array, a first meaning
without definitions, or a first definition without a definition string. -/
def failureShaped : LookupResponse → Bool
  | .failure => true
  | .success [] => true
  | .success (e :: _) =>
    match e.meanings with
    | none => true
    | some [] => true
    | some (m :: _) =>
      match m.definitions with
      | [] => true
      | d :: _ => d.definition.isNone

/-- C8: every failure condition — transport error, non-success HTTP status,
or malformed/absent expected fields — makes the dictionary lookup return
the single failure value `none`, with no partial record; and the word-set
builder does not crash on a failed candidate lookup: it skips that
candidate and continues with the remaining ones. -/
theorem lookup_failure_normalization (w : String) (resp : LookupResponse)
    (lk : String → LookupResponse) (w2 : String) (rest : List String)
    (hshape : failureShaped resp = true)
    (hfail : get_word_details w2 (lk w2) = none) :
    get_word_details w resp = none ∧
    tryCandidates lk (w2 :: rest) = tryCandidates lk rest := by
  constructor
  · match resp, hshape with
    | .failure, _ => rfl
    | .success [], _ => rfl
    | .success (⟨none⟩ :: es), _ => rfl
    | .success (⟨some []⟩ :: es), _ => rfl
    | .success (⟨some (⟨[]⟩ :: mrest)⟩ :: es), _ => rfl
    | .success (⟨some (⟨⟨none, dex⟩ :: drest⟩ :: mrest)⟩ :: es), _ => rfl
    | .success (⟨some (⟨⟨some df, dex⟩ :: drest⟩ :: mrest)⟩ :: es), hs =>
      exact Bool.noConfusion hs
  · simp [tryCandidates, hfail]

/-- C8 witness: the transport-error response normalizes to the failure
value, and the candidate probe skips a candidate whose lookup failed. -/
theorem lookup_failure_normalization_witness :
    get_word_details "cat" .failure = none ∧
    tryCandidates (fun _ => LookupResponse.failure) ["cat", "dog"] =
      tryCandidates (fun _ => LookupResponse.failure) ["dog"] :=
  lookup_failure_normalization "cat" .failure (fun _ => LookupResponse.failure) "cat"
    ["dog"] rfl rfl

/-- The empty store right after schema initialization; sqlite rowids start
at 1. -/
def emptyDB : DB := ⟨[], [], [], [], 1, 1⟩

/-- A concrete stand-in for the password-hash capability, used to
instantiate theorems at concrete worlds. -/
def hashId : String → String := fun s => s

theorem any_username_eq_contains (l : List UserRow) (u : String) :
    (l.any (fun r => r.username == u)) = ((l.map (fun r => r.username)).contains u) := by
  induction l with
  | nil => rfl
  | cons r rest ih =>
    have hsym : (r.username == u) = (u == r.username) := by
      by_cases h : r.username = u
      · rw [h]
      · rw [beq_eq_false_iff_ne.mpr h, beq_eq_false_iff_ne.mpr (Ne.symm h)]
    rw [List.map_cons, List.any_cons, List.contains_cons, ih, hsym]

/-- C9 counterexample: a request with both fields present but an empty
username is predicted 201 by the claim (the username is neither missing nor
registered) yet the code returns 400, because Python truthiness treats the
empty string like a missing field. -/
theorem register_statuses_counterexample :
    claimC9Status ⟨some "", some "secret123"⟩ emptyDB = 201 ∧
    (register hashId ⟨some "", some "secret123"⟩ emptyDB).1 = 400 :=
  ⟨rfl, rfl⟩

/-- C9 (amended): POST /api/register returns 400 whenever the username or
password is missing or empty; otherwise 409 whenever the submitted username
is already registered; otherwise it creates the user (next id, hashed
password appended to the user table) and returns 201. -/
theorem register_statuses (hash : String → String) (req : RegisterRequest) (db : DB) :
    register hash req db = registerSpec hash req db := by
  cases req with
  | mk u p =>
    cases u with
    | none => rfl
    | some us =>
      cases p with
      | none =>
        unfold register registerSpec truthy
        simp
      | some ps =>
        unfold register registerSpec truthy
        by_cases hu : us = ""
        · simp [hu]
        · by_cases hp : ps = ""
          · simp [hu, hp]
          · simp [hu, hp, any_username_eq_contains]

theorem foldl_applyRow_words (db : DB) (rows : List WordRow) :
    (rows.map PRow.w).foldl applyRow db = { db with words := db.words ++ rows } := by
  induction rows generalizing db with
  | nil => simp
  | cons r rest ih =>
    rw [List.map_cons, List.foldl_cons, ih]
    simp [applyRow]

theorem buildWordRows_session_id (sid : Nat) (ws : List (List (String × String)))
    (rows : List WordRow) (h : buildWordRows sid ws = .ok rows) :
    ∀ w ∈ rows, w.session_id = sid := by
  induction ws generalizing rows with
  | nil =>
    unfold buildWordRows at h
    injection h with h
    rw [← h]
    intro w hw
    cases hw
  | cons d rest ih =>
    unfold buildWordRows at h
    cases hr : rowOfDict sid d with
    | error e => rw [hr] at h; exact Except.noConfusion h
    | ok r =>
      rw [hr] at h
      cases hbr : buildWordRows sid rest with
      | error e => rw [hbr] at h; exact Except.noConfusion h
      | ok rs =>
        rw [hbr] at h
        injection h with h
        rw [← h]
        intro w hw
        rcases List.mem_cons.mp hw with hw | hw
        · rw [hw]
          unfold rowOfDict at hr
          cases h1 : dget d "letter" <;> rw [h1] at hr <;>
            cases h2 : dget d "word" <;> rw [h2] at hr <;>
            cases h3 : dget d "meaning" <;> rw [h3] at hr <;>
            cases h4 : dget d "example" <;> rw [h4] at hr <;>
            first
            | exact Except.noConfusion hr
            | (injection hr with hr; rw [← hr])
        · exact ih rs hbr w hw

theorem save_ok_shape (uid : Nat) (sd : SessionData) (now : String) (db : DB) (c' : Conn)
    (hok : save_session_data uid sd now ⟨db, []⟩ = .ok c') :
    ∃ mode score ws qz rows,
      sd.mode = some mode ∧ sd.scorePercent = some score ∧ sd.words = some ws ∧
      sd.quiz = some qz ∧ buildWordRows db.next_session_id ws = .ok rows ∧
      c' = ⟨{ db with
              sessions := db.sessions ++ [⟨db.next_session_id, uid, mode, score, now⟩]
              words := db.words ++ rows
              quizzes := db.quizzes ++ [⟨db.next_session_id, qz⟩]
              next_session_id := db.next_session_id + 1 }, []⟩ := by
  unfold save_session_data at hok
  cases hm : sd.mode with
  | none => rw [hm] at hok; exact SaveResult.noConfusion hok
  | some mode =>
    cases hsc : sd.scorePercent with
    | none => rw [hm, hsc] at hok; exact SaveResult.noConfusion hok
    | some score =>
      rw [hm, hsc] at hok
      cases hws : sd.words with
      | none => rw [hws] at hok; exact SaveResult.noConfusion hok
      | some ws =>
        rw [hws] at hok
        simp only [List.nil_append] at hok
        cases hbr : buildWordRows db.next_session_id ws with
        | error e => rw [hbr] at hok; exact SaveResult.noConfusion hok
        | ok rows =>
          rw [hbr] at hok
          cases hq : sd.quiz with
          | none => rw [hq] at hok; exact SaveResult.noConfusion hok
          | some qz =>
            rw [hq] at hok
            injection hok with hc
            refine ⟨mode, score, ws, qz, rows, rfl, rfl, rfl, rfl, hbr, ?_⟩
            rw [← hc]
            unfold commitConn
            simp only [List.nil_append, List.foldl_append, List.foldl_cons, List.foldl_nil,
              foldl_applyRow_words]
            simp [applyRow]

theorem save_err_committed (uid : Nat) (sd : SessionData) (now : String) (db : DB)
    (msg : String) (c' : Conn)
    (herr : save_session_data uid sd now ⟨db, []⟩ = .err msg c') :
    c'.committed = db := by
  unfold save_session_data at herr
  cases hm : sd.mode with
  | none =>
    rw [hm] at herr
    injection herr with h1 h2
    rw [← h2]
  | some mode =>
    cases hsc : sd.scorePercent with
    | none =>
      rw [hm, hsc] at herr
      injection herr with h1 h2
      rw [← h2]
    | some score =>
      simp only [hm, hsc, List.nil_append] at herr
      cases hws : sd.words with
      | none =>
        simp only [hws] at herr
        injection herr with h1 h2
        rw [← h2]
      | some ws =>
        simp only [hws] at herr
        cases hbr : buildWordRows db.next_session_id ws with
        | error e =>
          simp only [hbr] at herr
          injection herr with h1 h2
          rw [← h2]
        | ok rows =>
          simp only [hbr] at herr
          cases hq : sd.quiz with
          | none =>
            simp only [hq] at herr
            injection herr with h1 h2
            rw [← h2]
          | some qz =>
            simp only [hq] at herr
            exact SaveResult.noConfusion herr

/-- C5: createSession is atomic.  When any step fails (a missing or
malformed field partway through the write sequence), the observable store
after the request teardown is exactly the original one and the caller
receives the error status 500; when it succeeds, the committed store gains
the session header, all word rows and the quiz row together, every row tied
to the new session id — a header-without-words state is never observable. -/
theorem save_session_atomic (uid : Nat) (sd : SessionData) (now : String) (db : DB) :
    (∀ msg c', save_session_data uid sd now ⟨db, []⟩ = .err msg c' →
      closeConn c' = db ∧
      save_session_route (some uid) sd now db = (500, db)) ∧
    (∀ c', save_session_data uid sd now ⟨db, []⟩ = .ok c' →
      ∃ mode score ws qz rows,
        c'.committed.sessions =
          db.sessions ++ [⟨db.next_session_id, uid, mode, score, now⟩] ∧
        c'.committed.words = db.words ++ rows ∧
        c'.committed.quizzes = db.quizzes ++ [⟨db.next_session_id, qz⟩] ∧
        buildWordRows db.next_session_id ws = .ok rows ∧
        (∀ w ∈ rows, w.session_id = db.next_session_id) ∧
        save_session_route (some uid) sd now db = (201, c'.committed)) := by
  constructor
  · intro msg c' herr
    have h := save_err_committed uid sd now db msg c' herr
    refine ⟨h, ?_⟩
    simp only [save_session_route, herr, closeConn, h]
  · intro c' hok
    obtain ⟨mode, score, ws, qz, rows, hm, hsc, hws, hq, hbr, hc⟩ :=
      save_ok_shape uid sd now db c' hok
    subst hc
    refine ⟨mode, score, ws, qz, rows, rfl, rfl, rfl, hbr,
      buildWordRows_session_id _ _ _ hbr, ?_⟩
    simp only [save_session_route, hok, closeConn]

/-- C5 witness: a submission missing every field leaves the store unchanged
and yields the error status. -/
theorem save_session_atomic_witness :
    closeConn ⟨emptyDB, []⟩ = emptyDB ∧
    save_session_route (some 1) ⟨none, none, none, none⟩ "2026-01-01 00:00:00" emptyDB =
      (500, emptyDB) :=
  (save_session_atomic 1 ⟨none, none, none, none⟩ "2026-01-01 00:00:00" emptyDB).1
    "KeyError: mode or scorePercent" ⟨emptyDB, []⟩ rfl

/-- C6: for a session id every one of whose owners in the store differs
from the requesting user — which covers both a session owned by another
user and a nonexistent id — GET /api/sessions/<id> returns the identical
404 status and body, so the two cases are indistinguishable to the
caller. -/
theorem foreign_session_not_found (db : DB) (uid sid : Nat)
    (hforeign : ∀ s ∈ db.sessions, s.id = sid → s.user_id ≠ uid) :
    get_session_detail_route (some uid) sid db =
      .err 404 "Session not found or access denied." ∧
    get_session_detail_route (some uid) sid
        { db with sessions := db.sessions.filter (fun s => !(s.id == sid)) } =
      .err 404 "Session not found or access denied." := by
  have hnone : db.sessions.find? (fun s => s.id == sid && s.user_id == uid) = none := by
    apply List.find?_eq_none.mpr
    intro s hs
    simp only [Bool.and_eq_true, beq_iff_eq, not_and]
    intro h1
    exact hforeign s hs h1
  have hnone2 : (db.sessions.filter (fun s => !(s.id == sid))).find?
      (fun s => s.id == sid && s.user_id == uid) = none := by
    apply List.find?_eq_none.mpr
    intro s hs
    have hne : s.id ≠ sid := by simpa using List.of_mem_filter hs
    simp only [Bool.and_eq_true, beq_iff_eq, not_and]
    intro h1
    exact absurd h1 hne
  constructor
  · simp only [get_session_detail_route, get_session_details, hnone]
  · simp only [get_session_detail_route, get_session_details, hnone2]

/-- C6 witness: user 1 requesting session 7, which is owned by user 2,
receives the 404 response. -/
theorem foreign_session_not_found_witness :
    get_session_detail_route (some 1) 7
        ⟨[], [⟨7, 2, "beginner", 80, "2026-01-01 00:00:00"⟩], [], [], 8, 1⟩ =
      .err 404 "Session not found or access denied." :=
  (foreign_session_not_found
    ⟨[], [⟨7, 2, "beginner", 80, "2026-01-01 00:00:00"⟩], [], [], 8, 1⟩
    1 7 (by decide)).1

/-- Claim C7's per-tier statistics, at its words: computed over that user's
sessions in that tier only; a tier with zero sessions reports average 0 and
count 0. -/
def specTierStats (uid : Nat) (t : String) (db : DB) : TierStats :=
  let scores := (db.sessions.filter (fun s => s.user_id == uid && s.mode == t)).map
    (fun s => s.score_percent)
  if scores.isEmpty then ⟨0, 0⟩ else ⟨pyRound scores.sum scores.length, scores.length⟩

theorem lookup_map_self (g : String → TierStats) (t : String) (l : List String)
    (h : t ∈ l) : (l.map (fun k => (k, g k))).lookup t = some (g t) := by
  induction l with
  | nil => cases h
  | cons k ks ih =>
    rw [List.map_cons]
    by_cases hk : t = k
    · subst hk
      simp [List.lookup]
    · rcases List.mem_cons.mp h with h1 | h1
      · exact absurd h1 hk
      · simp [List.lookup, beq_eq_false_iff_ne.mpr hk, ih h1]

theorem tierQuery_eq_spec (uid : Nat) (db : DB) (t : String) :
    tierQuery uid db t = specTierStats uid t db := by
  unfold tierQuery specTierStats
  cases hrows : db.sessions.filter (fun s => s.user_id == uid && s.mode == t) with
  | nil => simp [hrows]
  | cons r rest => simp [hrows]

/-- C7: getTrackingStats returns an entry for each of the three difficulty
tiers, in order; each tier's entry holds the banker's-rounded integer mean
and the count over that user's sessions in that tier only (a tier with
zero sessions reporting average 0 and count 0, never a missing key); and
another user's session never changes the result. -/
theorem tracking_stats_tiers (uid : Nat) (db : DB) (t : String) (s' : SessionRow)
    (ht : t ∈ levels) (hs' : s'.user_id ≠ uid) :
    ((get_tracking_stats uid db).map (fun p => p.1) = levels) ∧
    ((get_tracking_stats uid db).lookup t = some (specTierStats uid t db)) ∧
    ((db.sessions.filter (fun s => s.user_id == uid && s.mode == t)) = [] →
      (get_tracking_stats uid db).lookup t = some ⟨0, 0⟩) ∧
    (get_tracking_stats uid { db with sessions := db.sessions ++ [s'] } =
      get_tracking_stats uid db) := by
  have hlookup : (get_tracking_stats uid db).lookup t = some (specTierStats uid t db) := by
    unfold get_tracking_stats
    rw [lookup_map_self (tierQuery uid db) t levels ht, tierQuery_eq_spec]
  refine ⟨?_, hlookup, ?_, ?_⟩
  · rfl
  · intro hempty
    rw [hlookup]
    unfold specTierStats
    simp [hempty]
  · have hfalse : (s'.user_id == uid) = false := beq_eq_false_iff_ne.mpr hs'
    unfold get_tracking_stats
    apply List.map_congr_left
    intro level _
    simp [tierQuery, List.filter_append, hfalse]

/-- C7 witness: a fresh store reports the three tiers, in order. -/
theorem tracking_stats_tiers_witness :
    (get_tracking_stats 1 emptyDB).map (fun p => p.1) = levels :=
  (tracking_stats_tiers 1 emptyDB "beginner"
    ⟨1, 2, "beginner", 80, "2026-01-01 00:00:00"⟩ (by decide) (by decide)).1

theorem buildWordRows_complete (sid : Nat) (ws : List (List (String × String)))
    (h : ∀ w ∈ ws, (dget w "letter").isSome ∧ (dget w "word").isSome ∧
      (dget w "meaning").isSome ∧ (dget w "example").isSome) :
    buildWordRows sid ws = .ok (ws.map (fun w =>
      ⟨sid, (dget w "letter").getD "", (dget w "word").getD "",
       (dget w "meaning").getD "", (dget w "example").getD ""⟩)) := by
  induction ws with
  | nil => rfl
  | cons w rest ih =>
    obtain ⟨h1, h2, h3, h4⟩ := h w (List.mem_cons_self w rest)
    obtain ⟨l, hl⟩ := Option.isSome_iff_exists.mp h1
    obtain ⟨wd, hwd⟩ := Option.isSome_iff_exists.mp h2
    obtain ⟨m, hm⟩ := Option.isSome_iff_exists.mp h3
    obtain ⟨e, he⟩ := Option.isSome_iff_exists.mp h4
    unfold buildWordRows rowOfDict
    rw [ih (fun x hx => h x (List.mem_cons_of_mem w hx))]
    simp [hl, hwd, hm, he]

/-- The 26-word submission used to refute C4 as stated: well-formed word
dicts, one per letter, exactly as the client submits them. -/
def cexWords : List (List (String × String)) :=
  uppercaseLetters.map (fun c =>
    [("letter", String.mk [c]), ("word", "Apple"), ("meaning", "a fruit"),
     ("example", "An example.")])

/-- C4 counterexample: a complete 26-word submission saved and immediately
fetched does not come back deep-equal — every returned word dict carries the
column name word_text where the submission had word. -/
theorem session_roundtrip_counterexample :
    ∃ c', save_session_data 1
        ⟨some "beginner", some 80, some cexWords, some (Json.arr [])⟩
        "2026-01-01 00:00:00" ⟨emptyDB, []⟩ = .ok c' ∧
      ∃ d, get_session_details 1 1 c'.committed = some d ∧
        dictsEq cexWords d.words = false := by
  refine ⟨_, rfl, _, rfl, ?_⟩
  decide

/-- C4 (amended): createSession followed immediately by getSessionDetail for
the id it created returns the exact quiz payload and all submitted word
records, with the same field values in the same order; deep equality holds
only after renaming each record's word key to the stored column name
word_text (and restricting to the four stored fields). -/
theorem session_roundtrip (uid : Nat) (sd : SessionData) (now : String) (db : DB)
    (mode : String) (score : Int) (ws : List (List (String × String))) (qz : Json)
    (hmode : sd.mode = some mode) (hscore : sd.scorePercent = some score)
    (hws : sd.words = some ws) (hqz : sd.quiz = some qz)
    (hcomplete : ∀ w ∈ ws, (dget w "letter").isSome ∧ (dget w "word").isSome ∧
      (dget w "meaning").isSome ∧ (dget w "example").isSome)
    (hfs : ∀ s ∈ db.sessions, s.id ≠ db.next_session_id)
    (hfw : ∀ w ∈ db.words, w.session_id ≠ db.next_session_id)
    (hfq : ∀ q ∈ db.quizzes, q.session_id ≠ db.next_session_id) :
    ∃ c', save_session_data uid sd now ⟨db, []⟩ = .ok c' ∧
      ∃ d, get_session_details uid db.next_session_id c'.committed = some d ∧
        d.words = ws.map renameWord ∧ d.quiz = qz ∧
        d.mode = mode ∧ d.scorePercent = score ∧ d.id = db.next_session_id := by
  have hbr := buildWordRows_complete db.next_session_id ws hcomplete
  have hok : save_session_data uid sd now ⟨db, []⟩ = .ok
      ⟨{ db with
         sessions := db.sessions ++ [⟨db.next_session_id, uid, mode, score, now⟩]
         words := db.words ++ ws.map (fun w =>
           ⟨db.next_session_id, (dget w "letter").getD "", (dget w "word").getD "",
            (dget w "meaning").getD "", (dget w "example").getD ""⟩)
         quizzes := db.quizzes ++ [⟨db.next_session_id, qz⟩]
         next_session_id := db.next_session_id + 1 }, []⟩ := by
    unfold save_session_data
    simp only [hmode, hscore, hws, hqz, hbr, List.nil_append]
    unfold commitConn
    simp only [List.foldl_append, List.foldl_cons, List.foldl_nil, foldl_applyRow_words]
    simp [applyRow]
  refine ⟨_, hok, ?_⟩
  unfold get_session_details
  have hfind : (db.sessions ++
        [(⟨db.next_session_id, uid, mode, score, now⟩ : SessionRow)]).find?
      (fun s => s.id == db.next_session_id && s.user_id == uid) =
      some (⟨db.next_session_id, uid, mode, score, now⟩ : SessionRow) := by
    rw [List.find?_append]
    have h1 : db.sessions.find?
        (fun s => s.id == db.next_session_id && s.user_id == uid) = none := by
      apply List.find?_eq_none.mpr
      intro s hs
      simp only [Bool.and_eq_true, beq_iff_eq, not_and]
      intro h2
      exact absurd h2 (hfs s hs)
    rw [h1]
    simp
  have hwords : (db.words ++ ws.map (fun w =>
      (⟨db.next_session_id, (dget w "letter").getD "", (dget w "word").getD "",
        (dget w "meaning").getD "", (dget w "example").getD ""⟩ : WordRow))).filter
      (fun w => w.session_id == db.next_session_id) =
      ws.map (fun w =>
        ⟨db.next_session_id, (dget w "letter").getD "", (dget w "word").getD "",
         (dget w "meaning").getD "", (dget w "example").getD ""⟩) := by
    rw [List.filter_append]
    have h1 : db.words.filter (fun w => w.session_id == db.next_session_id) = [] := by
      apply List.filter_eq_nil_iff.mpr
      intro w hw
      simp only [beq_iff_eq]
      exact hfw w hw
    have h2 : (ws.map (fun w =>
        (⟨db.next_session_id, (dget w "letter").getD "", (dget w "word").getD "",
          (dget w "meaning").getD "", (dget w "example").getD ""⟩ : WordRow))).filter
        (fun w => w.session_id == db.next_session_id) =
        ws.map (fun w =>
          ⟨db.next_session_id, (dget w "letter").getD "", (dget w "word").getD "",
           (dget w "meaning").getD "", (dget w "example").getD ""⟩) := by
      apply List.filter_eq_self.mpr
      intro a ha
      obtain ⟨w, _, hwa⟩ := List.mem_map.mp ha
      rw [← hwa]
      simp
    rw [h1, h2, List.nil_append]
  have hquiz : (db.quizzes ++ [(⟨db.next_session_id, qz⟩ : QuizRow)]).find?
      (fun q => q.session_id == db.next_session_id) =
      some (⟨db.next_session_id, qz⟩ : QuizRow) := by
    rw [List.find?_append]
    have h1 : db.quizzes.find? (fun q => q.session_id == db.next_session_id) = none := by
      apply List.find?_eq_none.mpr
      intro q hq
      simp only [beq_iff_eq]
      exact hfq q hq
    rw [h1]
    simp
  simp only [hfind, hwords, hquiz]
  refine ⟨_, rfl, ?_, rfl, rfl, rfl, rfl⟩
  rw [List.map_map]
  apply List.map_congr_left
  intro w _
  rfl

/-- C4 witness: a one-word well-formed submission round-trips into the
renamed dict shape with the exact quiz payload. -/
theorem session_roundtrip_witness :
    ∃ c', save_session_data 1
        ⟨some "beginner", some 80,
         some [[("letter", "A"), ("word", "Apple"), ("meaning", "a fruit"),
                ("example", "An example.")]],
         some (Json.str "quiz")⟩ "2026-01-01 00:00:00" ⟨emptyDB, []⟩ = .ok c' ∧
      ∃ d, get_session_details 1 emptyDB.next_session_id c'.committed = some d ∧
        d.words = [[("letter", "A"), ("word", "Apple"), ("meaning", "a fruit"),
                    ("example", "An example.")]].map renameWord ∧
        d.quiz = Json.str "quiz" ∧ d.mode = "beginner" ∧ d.scorePercent = 80 ∧
        d.id = emptyDB.next_session_id :=
  session_roundtrip 1
    ⟨some "beginner", some 80,
     some [[("letter", "A"), ("word", "Apple"), ("meaning", "a fruit"),
            ("example", "An example.")]],
     some (Json.str "quiz")⟩ "2026-01-01 00:00:00" emptyDB "beginner" 80
    [[("letter", "A"), ("word", "Apple"), ("meaning", "a fruit"),
      ("example", "An example.")]] (Json.str "quiz")
    rfl rfl rfl rfl (by decide) (by decide) (by decide) (by decide)

/-- C10: createSession stores the submitted mode string without validating
it against the three difficulty tiers; a session saved with a mode outside
them is returned by listSessions for its user, yet contributes to no tier's
average or count in the tracking statistics, which aggregate only the three
known mode strings. -/
theorem unvalidated_mode_excluded (uid : Nat) (sd : SessionData) (now : String) (db : DB)
    (m : String) (c' : Conn)
    (hm : sd.mode = some m) (hnot : m ∉ levels)
    (hok : save_session_data uid sd now ⟨db, []⟩ = .ok c') :
    (∃ s ∈ c'.committed.sessions,
        s.id = db.next_session_id ∧ s.user_id = uid ∧ s.mode = m) ∧
    (∃ e ∈ get_user_sessions uid c'.committed,
        e.id = db.next_session_id ∧ e.mode = m) ∧
    get_tracking_stats uid c'.committed = get_tracking_stats uid db := by
  obtain ⟨mode, score, ws, qz, rows, hm2, hsc, hws, hq, hbr, hc⟩ :=
    save_ok_shape uid sd now db c' hok
  rw [hm] at hm2
  injection hm2 with hm2
  subst hm2
  subst hc
  refine ⟨?_, ?_, ?_⟩
  · exact ⟨⟨db.next_session_id, uid, m, score, now⟩,
      List.mem_append_right db.sessions (List.mem_singleton.mpr rfl), rfl, rfl, rfl⟩
  · have hdrmem : (⟨db.next_session_id, uid, m, score, now⟩ : SessionRow) ∈
        ((db.sessions ++ [(⟨db.next_session_id, uid, m, score, now⟩ : SessionRow)]).filter
          (fun s => s.user_id == uid)) := by
      apply List.mem_filter.mpr
      exact ⟨List.mem_append_right db.sessions (List.mem_singleton.mpr rfl), by simp⟩
    have hsortmem : (⟨db.next_session_id, uid, m, score, now⟩ : SessionRow) ∈
        ((db.sessions ++ [(⟨db.next_session_id, uid, m, score, now⟩ : SessionRow)]).filter
          (fun s => s.user_id == uid)).mergeSort (fun a b => decide (b.date ≤ a.date)) := by
      rw [(List.mergeSort_perm _ _).mem_iff]
      exact hdrmem
    exact ⟨⟨db.next_session_id, m, score, date_formatted now⟩,
      List.mem_map.mpr ⟨_, hsortmem, rfl⟩, rfl, rfl⟩
  · unfold get_tracking_stats
    apply List.map_congr_left
    intro level hlevel
    have hne : (m == level) = false :=
      beq_eq_false_iff_ne.mpr (fun h => hnot (h ▸ hlevel))
    simp [tierQuery, List.filter_append, hne]

/-- C10 witness: a session saved with the unknown mode "expert" leaves the
tracking statistics identical to the fresh store's. -/
theorem unvalidated_mode_excluded_witness :
    get_tracking_stats 1
        (⟨[], [⟨1, 1, "expert", 50, "2026-01-01 00:00:00"⟩], [],
          [⟨1, Json.arr []⟩], 2, 1⟩ : DB) =
      get_tracking_stats 1 emptyDB :=
  (unvalidated_mode_excluded 1 ⟨some "expert", some 50, some [], some (Json.arr [])⟩
    "2026-01-01 00:00:00" emptyDB "expert"
    ⟨⟨[], [⟨1, 1, "expert", 50, "2026-01-01 00:00:00"⟩], [],
      [⟨1, Json.arr []⟩], 2, 1⟩, []⟩
    rfl (by decide) rfl).2.2
